import Mathlib

/-!
Verification of the `BackupEditAndRestore` scoped backup/edit/restore
resource manager (`src/ssh_harness/contexts/backupeditandrestore.py`).

The file system is modelled as a partial map from paths to file contents
(`FS := String → Option String`), the process-wide registry
(`BackupEditAndRestore._contexts`) as a partial map from a (context, path)
pair to the identity of the registered editor instance, and the editor
object as a record of its constructor-computed paths and its three state
flags (`_entered`, `_have_backup`, `_restored`).  Each Python method
becomes a state-passing function; a raised exception becomes an
`Except.error` carrying the error kind.
-/

namespace BackupEditAndRestore

/-- A file system: each path is either absent (`none`) or holds a content. -/
abbrev FS := String → Option String

/-- The class-level registry `_contexts`: maps a context name and a path to
the id of the registered editor instance, if any. -/
abbrev Registry := String → String → Option Nat

/-- `os.path.isfile` on the model: the path is present. -/
def isfile (fs : FS) (p : String) : Bool :=
  (fs p).isSome

/-- Write content `c` at path `p` (create or overwrite). -/
def fsSet (fs : FS) (p : String) (c : String) : FS :=
  fun q => if q = p then some c else fs q

/-- Remove path `p` from the file system. -/
def fsErase (fs : FS) (p : String) : FS :=
  fun q => if q = p then none else fs q

/-- `shutil.copy(src, dst)`: overwrite `dst` with the content of `src`.
In the source this is only ever called under an `os.path.isfile(src)`
guard, so the `getD` default is never exercised. -/
def copyFile (fs : FS) (src dst : String) : FS :=
  fsSet fs dst ((fs src).getD "")

/-- The error kinds raised by the component (spec §4.1 error taxonomy plus
the unguarded `mode[0]` index access):
`invalidArgument` is the `ValueError` for a nonsensical open mode,
`alreadyBackedUp` the `RuntimeError("File already backed up!")`,
`illegalReuse` the `RuntimeError` on re-entering a scope,
`notRegistered` the `RuntimeError`s of `_unregister`,
`ioError` an `OSError`/`IOError` from the file system, and
`indexError` the `IndexError` from `check_mode[0]` on an empty mode. -/
inductive Err where
  | invalidArgument
  | alreadyBackedUp
  | illegalReuse
  | notRegistered
  | ioError
  | indexError
deriving DecidableEq, Repr

/-- `os.rename(src, dst)`.  `plat` selects the platform behaviour: on a
POSIX system (`plat = false`) renaming onto an existing file succeeds
atomically; on a platform without atomic rename (`plat = true`, "for
windows" in the source) renaming onto an existing destination raises
`OSError`.  Renaming a missing source raises `OSError` everywhere. -/
def osRename (plat : Bool) (fs : FS) (src dst : String) : Except Err FS :=
  if (fs src).isSome then
    if plat ∧ (fs dst).isSome ∧ src ≠ dst then
      .error .ioError
    else
      .ok (fsSet (fsErase fs src) dst ((fs src).getD ""))
  else
    .error .ioError

/-- `os.remove` / `os.unlink`: raises `OSError` when the path is absent. -/
def osRemove (fs : FS) (p : String) : Except Err FS :=
  if isfile fs p then .ok (fsErase fs p) else .error .ioError

/-- `_move(src, dst)` (lines 29–37): try `os.rename`; on `OSError` fall
back once to `os.remove(dst)` followed by `os.rename(src, dst)`. -/
def move (plat : Bool) (fs : FS) (src dst : String) : Except Err FS :=
  match osRename plat fs src dst with
  | .ok fs' => .ok fs'
  | .error _ =>
      match osRemove fs dst with
      | .ok fs1 => osRename plat fs1 src dst
      | .error e => .error e

/-- `mode.replace('U', 'r')`: a single-character replacement is a map. -/
def replaceU (l : List Char) : List Char :=
  l.map (fun ch => if ch = 'U' then 'r' else ch)

/-- `.replace('rr', 'r')`: replace every non-overlapping occurrence of
`"rr"` by `"r"`, scanning left to right and continuing after each
replacement, exactly as Python's `str.replace` does. -/
def squashRR : List Char → List Char
  | [] => []
  | [ch] => [ch]
  | a :: b :: rest =>
      if a = 'r' ∧ b = 'r' then 'r' :: squashRR rest
      else a :: squashRR (b :: rest)

/-- `check_mode = (mode * 1).replace('U', 'r').replace('rr', 'r')`
(line 91), as a character list. -/
def checkMode (mode : String) : List Char :=
  squashRR (replaceU mode.data)

/-- The rejection test of line 92:
`'r' == check_mode[0] and '+' not in check_mode`. -/
def modeRejected (mode : String) : Bool :=
  ((checkMode mode).head? == some 'r') && !((checkMode mode).contains '+')

/-- Python `open(p, mode)` restricted to its effect on the file system:
a read mode (`'r'`/`'U'` first) requires the file to exist and leaves it
unchanged, `'w'` creates or truncates, `'a'` creates empty when absent and
otherwise leaves the content in place, `'x'` creates and fails on an
existing file, and any other leading character is a `ValueError`.
A missing-file or existing-file failure is an `IOError`. -/
def openFile (fs : FS) (p : String) (mode : String) : Except Err FS :=
  match mode.data.head? with
  | some 'r' => if isfile fs p then .ok fs else .error .ioError
  | some 'U' => if isfile fs p then .ok fs else .error .ioError
  | some 'w' => .ok (fsSet fs p "")
  | some 'a' => if isfile fs p then .ok fs else .ok (fsSet fs p "")
  | some 'x' => if isfile fs p then .error .ioError else .ok (fsSet fs p "")
  | _ => .error .invalidArgument

/-- One in-flight editor: the constructor-computed data and the three
state flags.  `haveBackup` is an `Option Bool` because `_have_backup` is
initialised to `None` and only set to a boolean by `__enter__`.  `id`
stands for Python object identity, used by `_unregister`'s `is` check. -/
structure Editor where
  ctx : String
  path : String
  suffix : String
  mode : String
  id : Nat
  entered : Bool
  haveBackup : Option Bool
  restored : Bool
deriving DecidableEq, Repr

/-- `self._new_path = '{}.{}'.format(self._path, 'new-' + self._suffix)`
(lines 98–100): the edit file the caller actually writes to. -/
def Editor.newPath (e : Editor) : String :=
  e.path ++ "." ++ ("new-" ++ e.suffix)

/-- `self._backup_path = '{}.{}'.format(self._path, self._suffix)`
(line 101): the snapshot of the pre-edit target. -/
def Editor.backupPath (e : Editor) : String :=
  e.path ++ "." ++ e.suffix

/-- `_register(context, path, inst)` (lines 168–178): error if the pair is
already present, otherwise record the instance. -/
def register (r : Registry) (c p : String) (i : Nat) : Except Err Registry :=
  if (r c p).isSome then .error .alreadyBackedUp
  else .ok (fun c' p' => if c' = c ∧ p' = p then some i else r c' p')

/-- Point update of the registry (used by `register`). -/
def regSet (r : Registry) (c p : String) (i : Nat) : Registry :=
  fun c' p' => if c' = c ∧ p' = p then some i else r c' p'

/-- Point removal from the registry (the `del` of `_unregister`). -/
def regDel (r : Registry) (c p : String) : Registry :=
  fun c' p' => if c' = c ∧ p' = p then none else r c' p'

/-- `_unregister(context, path, inst)` (lines 180–191): error if nothing
is registered at the pair or if the registered instance is not the one
passed; otherwise delete the entry. -/
def unregister (r : Registry) (c p : String) (i : Nat) : Except Err Registry :=
  match r c p with
  | none => .error .notRegistered
  | some j => if j = i then .ok (regDel r c p) else .error .notRegistered

/-- The editor record as `__init__` leaves it (lines 96–107): paths
computed from `path` and the effective suffix, all flags in their initial
state (`_entered = False`, `_have_backup = None`, `_restored = False`). -/
def mkEditor (c p mode suf : String) (i : Nat) : Editor :=
  { ctx := c, path := p, suffix := suf, mode := mode, id := i,
    entered := false, haveBackup := none, restored := false }

/-- `__init__(context, path, mode='a', suffix=None)` (lines 90–121) as a
state transformer.  In source order: the mode check (lines 91–93, with the
`IndexError` of `check_mode[0]` when the mode is empty), `_register`
(line 94), the pre-population copy when `mode[0] in ['a', 'r', 'U']` and
the target exists (lines 110–113), and the `open` of the edit file
(lines 117–121), whose `IOError` triggers `_unregister` before the error
propagates, while a `ValueError` propagates without unregistering.
The resulting file system and registry are returned on every path, since a
Python exception does not roll back the mutations already made. -/
def construct (c p mode : String) (sfx : Option String) (i : Nat)
    (fs : FS) (r : Registry) : Except Err Editor × FS × Registry :=
  match (checkMode mode).head? with
  | none => (.error .indexError, fs, r)
  | some _ =>
    if modeRejected mode then (.error .invalidArgument, fs, r)
    else
      match register r c p i with
      | .error e => (.error e, fs, r)
      | .ok r1 =>
        let ed := mkEditor c p mode (sfx.getD "backup") i
        let fs1 :=
          if (mode.data.head? == some 'a' || mode.data.head? == some 'r'
                || mode.data.head? == some 'U') && isfile fs p then
            copyFile fs p ed.newPath
          else fs
        match openFile fs1 ed.newPath mode with
        | .ok fs2 => (.ok ed, fs2, r1)
        | .error .ioError =>
            match unregister r1 c p i with
            | .ok r2 => (.error .ioError, fs1, r2)
            | .error e => (.error e, fs1, r1)
        | .error e => (.error e, fs1, r1)

/-- `__enter__` (lines 124–136): error on re-entry, otherwise mark the
scope entered, set `_have_backup` to whether the target currently exists,
and when it does copy the target to the backup path.  The re-entry check
comes first, so the error path mutates nothing. -/
def enter (ed : Editor) (fs : FS) : Except Err (Editor × FS) :=
  if ed.entered then .error .illegalReuse
  else
    if isfile fs ed.path then
      .ok ({ ed with entered := true, haveBackup := some true },
           copyFile fs ed.path ed.backupPath)
    else
      .ok ({ ed with entered := true, haveBackup := some false }, fs)

/-- The caller's writes to the handle returned by the editor, which is
open on `editPath` (`self._f` on `self._new_path`): by the end of the
scope they have left the edit file with content `w`. -/
def writeEdit (ed : Editor) (fs : FS) (w : String) : FS :=
  fsSet fs ed.newPath w

/-- `__exit__` (lines 144–150): close the edit handle (no file-system
effect in the model) and `_move` the edit file onto the target. -/
def exitScope (plat : Bool) (ed : Editor) (fs : FS) : Except Err FS :=
  move plat fs ed.newPath ed.path

/-- `restore()` (lines 152–166): a no-op when already restored; otherwise
`_move` the backup onto the target when `self._have_backup is True`, else
`os.unlink` the target; then mark restored and `_unregister`. -/
def restore (plat : Bool) (ed : Editor) (fs : FS) (r : Registry) :
    Except Err (Editor × FS × Registry) :=
  if ed.restored then .ok (ed, fs, r)
  else
    match (if ed.haveBackup = some true
           then move plat fs ed.backupPath ed.path
           else osRemove fs ed.path) with
    | .error e => .error e
    | .ok fs1 =>
        match unregister r ed.ctx ed.path ed.id with
        | .error e => .error e
        | .ok r1 => .ok ({ ed with restored := true }, fs1, r1)

/-! ### Concrete fixtures used by the witness theorems -/

/-- The empty file system. -/
def fs0 : FS := fun _ => none

/-- The empty registry. -/
def reg0 : Registry := fun _ _ => none

/-- A file system holding only the target `"t"` with content `"abc"`. -/
def fsAbc : FS := fun q => if q = "t" then some "abc" else none

/-- An already-entered editor on `"t"` (default suffix). -/
def edW : Editor :=
  { ctx := "ssh_harness", path := "t", suffix := "backup", mode := "w", id := 0,
    entered := true, haveBackup := some false, restored := false }

/-- A file system holding only the edit file of `edW` with content `"X"`. -/
def fsX : FS := fun q => if q = "t.new-backup" then some "X" else none

/-- An editor on `"t"` whose `restore()` has already run. -/
def edRestored : Editor :=
  { ctx := "ssh_harness", path := "t", suffix := "backup", mode := "a", id := 0,
    entered := true, haveBackup := some false, restored := true }

/-- The editor of the concrete runs: context `"ssh_harness"`, target
`"t"`, default mode `"a"`, default suffix, instance 0. -/
def edA : Editor := mkEditor "ssh_harness" "t" "a" "backup" 0

/-- The file system after constructing `edA` over `fsAbc`: the target was
copied to the edit file. -/
def fs1A : FS := copyFile fsAbc "t" edA.newPath

/-- `edA` once its scope is entered over `fs1A` (the target exists, so a
backup is recorded). -/
def edA2 : Editor := { edA with entered := true, haveBackup := some true }

/-- The file system after entering: the target was copied to the backup
file. -/
def fs2A : FS := copyFile fs1A "t" edA.backupPath

/-- The file system after constructing `edA` over the empty `fs0`: only
the freshly created, empty edit file exists. -/
def fs1E : FS := fsSet fs0 edA.newPath ""

/-- The states an editor reaches when used through the component's
protocol, starting from file system `fsInit` and registry `rInit`: a
successful construction, then entering the scope (a scope is entered
before the editor is restored), writes to the edit handle while the scope
is open, a successful exit, and successful `restore()` calls. -/
inductive Reach (plat : Bool) (fsInit : FS) (rInit : Registry) :
    Editor → FS → Registry → Prop
  | init {c p mode : String} {sfx : Option String} {i : Nat} {ed : Editor}
      {fs1 : FS} {r1 : Registry} :
      construct c p mode sfx i fsInit rInit = (.ok ed, fs1, r1) →
      Reach plat fsInit rInit ed fs1 r1
  | enterStep {ed : Editor} {fs : FS} {r : Registry} {ed' : Editor}
      {fs' : FS} :
      Reach plat fsInit rInit ed fs r → ed.restored = false →
      enter ed fs = .ok (ed', fs') → Reach plat fsInit rInit ed' fs' r
  | writeStep {ed : Editor} {fs : FS} {r : Registry} (w : String) :
      Reach plat fsInit rInit ed fs r → ed.entered = true →
      Reach plat fsInit rInit ed (writeEdit ed fs w) r
  | exitStep {ed : Editor} {fs : FS} {r : Registry} {fs' : FS} :
      Reach plat fsInit rInit ed fs r →
      exitScope plat ed fs = .ok fs' → Reach plat fsInit rInit ed fs' r
  | restoreStep {ed : Editor} {fs : FS} {r : Registry} {ed' : Editor}
      {fs' : FS} {r' : Registry} :
      Reach plat fsInit rInit ed fs r →
      restore plat ed fs r = .ok (ed', fs', r') →
      Reach plat fsInit rInit ed' fs' r'

/-! ### Basic lemmas about the file-system and registry primitives -/

theorem fsSet_self (fs : FS) (p c : String) : fsSet fs p c p = some c := by
  simp [fsSet]

theorem fsSet_of_ne {q p : String} (fs : FS) (c : String) (h : q ≠ p) :
    fsSet fs p c q = fs q := by
  simp [fsSet, h]

theorem fsErase_self (fs : FS) (p : String) : fsErase fs p p = none := by
  simp [fsErase]

theorem fsErase_of_ne {q p : String} (fs : FS) (h : q ≠ p) :
    fsErase fs p q = fs q := by
  simp [fsErase, h]

theorem copyFile_of_ne {q dst : String} (fs : FS) (src : String) (h : q ≠ dst) :
    copyFile fs src dst q = fs q := by
  simp [copyFile, fsSet, h]

theorem copyFile_self {src : String} {cnt : String} (fs : FS) (dst : String)
    (h : fs src = some cnt) : copyFile fs src dst dst = some cnt := by
  simp [copyFile, fsSet, h]

/-! ### The three derived paths are pairwise distinct

`editPath = path ++ ".new-" ++ suffix` and
`backupPath = path ++ "." ++ suffix` are both strictly longer than `path`,
and differ from each other in length by the four characters of `"new-"`,
whatever the suffix is. -/

theorem Editor.path_ne_newPath (ed : Editor) : ed.path ≠ ed.newPath := by
  intro h
  have h2 := congrArg String.length h
  simp only [Editor.newPath, String.length_append] at h2
  have hd : String.length "." = 1 := rfl
  have hn : String.length "new-" = 4 := rfl
  omega

theorem Editor.path_ne_backupPath (ed : Editor) : ed.path ≠ ed.backupPath := by
  intro h
  have h2 := congrArg String.length h
  simp only [Editor.backupPath, String.length_append] at h2
  have hd : String.length "." = 1 := rfl
  omega

theorem Editor.newPath_ne_backupPath (ed : Editor) : ed.newPath ≠ ed.backupPath := by
  intro h
  have h2 := congrArg String.length h
  simp only [Editor.newPath, Editor.backupPath, String.length_append] at h2
  have hn : String.length "new-" = 4 := rfl
  omega

/-! ### Frame and elimination lemmas for the primitive operations -/

/-- A successful `open` changes no path other than the one opened. -/
theorem openFile_ok_frame {fs : FS} {p mode : String} {fs' : FS}
    (h : openFile fs p mode = .ok fs') {q : String} (hq : q ≠ p) :
    fs' q = fs q := by
  unfold openFile at h
  split at h <;> (try split at h) <;> simp at h <;> subst h <;> simp [fsSet, hq]

/-- A successful `_move` puts the source's content at the destination,
removes the source, and touches nothing else; this holds on both platform
behaviours (direct rename, or the delete-then-rename fallback). -/
theorem move_ok_of_src (plat : Bool) {fs : FS} {src dst cnt : String}
    (hs : fs src = some cnt) (hne : src ≠ dst) :
    ∃ fs', move plat fs src dst = .ok fs' ∧ fs' dst = some cnt ∧
      fs' src = none ∧ ∀ q, q ≠ src → q ≠ dst → fs' q = fs q := by
  have hsome : (fs src).isSome = true := by simp [hs]
  by_cases hp : plat = true ∧ (fs dst).isSome = true ∧ src ≠ dst
  · have h1 : osRename plat fs src dst = .error .ioError := by
      simp only [osRename, hsome, if_true]
      rw [if_pos]
      exact ⟨hp.1, hp.2.1, hp.2.2⟩
    have h2 : osRemove fs dst = .ok (fsErase fs dst) := by
      simp [osRemove, isfile, hp.2.1]
    have h3 : (fsErase fs dst) src = some cnt := by
      simp [fsErase, hne, hs]
    have h4 : ((fsErase fs dst) dst).isSome = false := by simp [fsErase]
    refine ⟨fsSet (fsErase (fsErase fs dst) src) dst cnt, ?_, ?_, ?_, ?_⟩
    · simp only [move, h1, h2]
      simp only [osRename, h3, Option.isSome_some, if_true, h4]
      rw [if_neg (by simp)]
      simp [h3]
    · exact fsSet_self _ _ _
    · rw [fsSet_of_ne _ _ hne, fsErase_self]
    · intro q hqs hqd
      rw [fsSet_of_ne _ _ hqd, fsErase_of_ne _ hqs, fsErase_of_ne _ hqd]
  · have h1 : osRename plat fs src dst
        = .ok (fsSet (fsErase fs src) dst ((fs src).getD "")) := by
      simp only [osRename, hsome, if_true]
      rw [if_neg]
      intro hc
      exact hp ⟨hc.1, hc.2.1, hc.2.2⟩
    refine ⟨fsSet (fsErase fs src) dst cnt, ?_, ?_, ?_, ?_⟩
    · simp only [move, h1, hs]
      rfl
    · exact fsSet_self _ _ _
    · rw [fsSet_of_ne _ _ hne, fsErase_self]
    · intro q hqs hqd
      rw [fsSet_of_ne _ _ hqd, fsErase_of_ne _ hqs]

/-- A successful `os.rename` leaves paths other than source and
destination unchanged. -/
theorem osRename_ok_frame {plat : Bool} {fs : FS} {src dst : String} {fs' : FS}
    (h : osRename plat fs src dst = .ok fs') {q : String}
    (h1 : q ≠ src) (h2 : q ≠ dst) : fs' q = fs q := by
  unfold osRename at h
  split at h
  · split at h
    · simp at h
    · simp at h
      subst h
      rw [fsSet_of_ne _ _ h2, fsErase_of_ne _ h1]
  · simp at h

/-- A successful `os.remove` leaves other paths unchanged. -/
theorem osRemove_ok_frame {fs : FS} {p : String} {fs' : FS}
    (h : osRemove fs p = .ok fs') {q : String} (hq : q ≠ p) :
    fs' q = fs q := by
  unfold osRemove at h
  split at h
  · simp at h
    subst h
    exact fsErase_of_ne _ hq
  · simp at h

/-- A successful `_move` leaves every path other than its source and
destination unchanged, whichever internal path it took. -/
theorem move_ok_frame {plat : Bool} {fs : FS} {src dst : String} {fs' : FS}
    (h : move plat fs src dst = .ok fs') {q : String}
    (h1 : q ≠ src) (h2 : q ≠ dst) : fs' q = fs q := by
  unfold move at h
  split at h
  · rename_i fs1 heq
    simp at h
    subst h
    exact osRename_ok_frame heq h1 h2
  · rename_i e heq
    split at h
    · rename_i fs1 hrem
      have g1 := osRemove_ok_frame hrem h2
      have g2 := osRename_ok_frame h h1 h2
      rw [g2, g1]
    · simp at h

/-! ### Lemmas about the mode normalisation `check_mode` -/

/-- Replacing `"rr"` by `"r"` never removes or adds a character other
than `'r'`. -/
theorem mem_squashRR {ch : Char} (hch : ch ≠ 'r') (l : List Char) :
    ch ∈ squashRR l ↔ ch ∈ l := by
  induction l using squashRR.induct with
  | case1 => simp [squashRR]
  | case2 c2 => simp [squashRR]
  | case3 a b rest hab ih =>
      simp only [squashRR, if_pos hab, hab.1, hab.2]
      simp [ih, hch]
  | case4 a b rest hab ih =>
      simp only [squashRR, if_neg hab]
      simp [ih]

/-- Replacing `"rr"` by `"r"` keeps the first character. -/
theorem squashRR_head? (l : List Char) : (squashRR l).head? = l.head? := by
  cases l with
  | nil => rfl
  | cons a t =>
    cases t with
    | nil => rfl
    | cons b rest =>
      simp only [squashRR]
      split
      · rename_i hab
        simp [hab.1]
      · simp

/-- Replacing `'U'` by `'r'` never removes or adds a character other than
`'r'` and `'U'`. -/
theorem mem_replaceU {ch : Char} (h1 : ch ≠ 'r') (h2 : ch ≠ 'U')
    (l : List Char) : ch ∈ replaceU l ↔ ch ∈ l := by
  simp only [replaceU, List.mem_map]
  constructor
  · rintro ⟨a, ha, heq⟩
    split at heq
    · exact absurd heq.symm h1
    · subst heq
      exact ha
  · intro h
    refine ⟨ch, h, ?_⟩
    simp [h2]

/-- The first character of `check_mode` is the first character of `mode`
with `'U'` normalised to `'r'`. -/
theorem checkMode_head? (mode : String) :
    (checkMode mode).head?
      = mode.data.head?.map (fun ch => if ch = 'U' then 'r' else ch) := by
  rw [checkMode, squashRR_head?, replaceU, List.head?_map]

/-- `'+' in check_mode` is the same test as `'+' in mode`. -/
theorem checkMode_contains_plus (mode : String) :
    ('+' ∈ checkMode mode) ↔ ('+' ∈ mode.data) := by
  rw [checkMode, mem_squashRR (by decide), mem_replaceU (by decide) (by decide)]

/-! ### Elimination lemmas for the lifecycle operations -/

/-- What a successful construction guarantees (lines 90–121): the pair was
free and is now registered to this instance, the editor record is in its
initial state with the derived paths, every path other than the edit file
is untouched, and the edit file has been pre-populated with the target's
content for an append/read-update mode (or truncated/created empty when
the target was absent and the path was free). -/
theorem construct_ok_elim {c p mode : String} {sfx : Option String} {i : Nat}
    {fs : FS} {r : Registry} {ed : Editor} {fs1 : FS} {r1 : Registry}
    (h : construct c p mode sfx i fs r = (.ok ed, fs1, r1)) :
    ed = mkEditor c p mode (sfx.getD "backup") i ∧
    r c p = none ∧ r1 = regSet r c p i ∧
    (∀ q, q ≠ ed.newPath → fs1 q = fs q) ∧
    ((mode.data.head? = some 'a' ∨ mode.data.head? = some 'r'
        ∨ mode.data.head? = some 'U') →
      ∀ cnt, fs p = some cnt → fs1 ed.newPath = some cnt) ∧
    (fs p = none → fs ed.newPath = none → fs1 ed.newPath = some "") := by
  unfold construct at h
  split at h
  · simp at h
  · split at h
    · simp at h
    · split at h
      · simp at h
      · rename_i r1' hreg
        have hfree : r c p = none ∧ r1' = regSet r c p i := by
          unfold register at hreg
          split at hreg
          · simp at hreg
          · rename_i hns
            simp only [Except.ok.injEq] at hreg
            refine ⟨Option.not_isSome_iff_eq_none.mp (by simpa using hns), ?_⟩
            rw [← hreg]
            rfl
        simp only [] at h
        split at h
        · rename_i fs2 hopen
          simp only [Prod.mk.injEq, Except.ok.injEq] at h
          obtain ⟨hed, hfs, hr⟩ := h
          subst hed
          subst hfs
          subst hr
          refine ⟨rfl, hfree.1, hfree.2, ?_, ?_, ?_⟩
          · intro q hq
            have h1 := openFile_ok_frame hopen hq
            rw [h1]
            split
            · exact copyFile_of_ne _ _ hq
            · rfl
          · intro hmode cnt hcnt
            have hc : ((mode.data.head? == some 'a' || mode.data.head? == some 'r'
                || mode.data.head? == some 'U') && isfile fs p) = true := by
              rcases hmode with h' | h' | h' <;> simp [h', isfile, hcnt]
            rw [if_pos hc] at hopen
            have hcp : copyFile fs p (mkEditor c p mode (sfx.getD "backup") i).newPath
                (mkEditor c p mode (sfx.getD "backup") i).newPath = some cnt :=
              copyFile_self _ _ hcnt
            unfold openFile at hopen
            rcases hmode with h' | h' | h' <;>
              simp only [h', isfile, hcp, Option.isSome_some, if_true,
                Except.ok.injEq] at hopen <;>
              rw [← hopen] <;>
              exact hcp
          · intro hp hnp
            have hc : ((mode.data.head? == some 'a' || mode.data.head? == some 'r'
                || mode.data.head? == some 'U') && isfile fs p) = false := by
              simp [isfile, hp]
            rw [if_neg (by simp [hc])] at hopen
            unfold openFile at hopen
            split at hopen <;>
              simp [isfile, hnp] at hopen <;>
              rw [← hopen, fsSet_self]
        · split at h <;> simp at h
        · simp at h

/-- What a successful `__enter__` guarantees (lines 124–136): the scope
had not been entered, `_have_backup` records whether the target existed,
and the backup copy is taken exactly when it did. -/
theorem enter_ok_elim {ed : Editor} {fs : FS} {ed' : Editor} {fs' : FS}
    (h : enter ed fs = .ok (ed', fs')) :
    ed.entered = false ∧
    ed' = { ed with entered := true, haveBackup := some (isfile fs ed.path) } ∧
    (isfile fs ed.path = true → fs' = copyFile fs ed.path ed.backupPath) ∧
    (isfile fs ed.path = false → fs' = fs) := by
  unfold enter at h
  split at h
  · simp at h
  · rename_i hent
    split at h
    · rename_i hfile
      simp only [Except.ok.injEq, Prod.mk.injEq] at h
      obtain ⟨hed, hfs⟩ := h
      refine ⟨by simpa using hent, ?_, fun _ => hfs.symm, ?_⟩
      · rw [← hed, hfile]
      · intro hc
        rw [hfile] at hc
        simp at hc
    · rename_i hfile
      have hf : isfile fs ed.path = false := by simpa using hfile
      simp only [Except.ok.injEq, Prod.mk.injEq] at h
      obtain ⟨hed, hfs⟩ := h
      refine ⟨by simpa using hent, ?_, ?_, fun _ => hfs.symm⟩
      · rw [← hed, hf]
      · intro hc
        rw [hf] at hc
        simp at hc

/-- A successful `_move` computes, on both platform behaviours, the same
resulting file system: the source's content now at the destination and the
source gone. -/
theorem move_ok_fun (plat : Bool) {fs : FS} {src dst cnt : String}
    (hs : fs src = some cnt) (hne : src ≠ dst) :
    move plat fs src dst = .ok (fsSet (fsErase fs src) dst cnt) := by
  obtain ⟨fs', hmv, hdst, hsrc, hfr⟩ := move_ok_of_src plat hs hne
  rw [hmv]
  congr 1
  funext q
  by_cases hq1 : q = dst
  · subst hq1
    rw [hdst, fsSet_self]
  · rw [fsSet_of_ne _ _ hq1]
    by_cases hq2 : q = src
    · subst hq2
      rw [hsrc, fsErase_self]
    · rw [fsErase_of_ne _ hq2, hfr q hq2 hq1]


/-! ### The claims -/

/-- C2: for every scope state in which the edit file holds the content `w`
written during the scope, exit succeeds on both platform behaviours (the
direct rename, and the delete-then-rename fallback when renaming onto an
existing file is disallowed); afterwards `editPath` no longer exists and
`targetPath` exists with content `w`.  (Python's `with` runs `__exit__` on
every exit path, normal or exceptional; the model's `exitScope` is that
unconditional cleanup.) -/
theorem claim_c2 (plat : Bool) (ed : Editor) (fs : FS) (w : String)
    (hw : fs ed.newPath = some w) :
    exitScope plat ed fs = .ok (fsSet (fsErase fs ed.newPath) ed.path w) ∧
    fsSet (fsErase fs ed.newPath) ed.path w ed.newPath = none ∧
    fsSet (fsErase fs ed.newPath) ed.path w ed.path = some w := by
  have hne : ed.newPath ≠ ed.path := Ne.symm (Editor.path_ne_newPath ed)
  refine ⟨move_ok_fun plat hw hne, ?_, fsSet_self _ _ _⟩
  rw [fsSet_of_ne _ _ hne, fsErase_self]

/-- Witness for C2 at a concrete input: the edit file of `edW` holds
`"X"`; exit moves it onto the target. -/
theorem claim_c2_witness :
    exitScope false edW fsX = .ok (fsSet (fsErase fsX edW.newPath) edW.path "X") ∧
    fsSet (fsErase fsX edW.newPath) edW.path "X" edW.newPath = none ∧
    fsSet (fsErase fsX edW.newPath) edW.path "X" edW.path = some "X" :=
  claim_c2 false edW fsX "X" (by decide)

/-- C3: constructing a second editor for a `(context, path)` pair already
registered (to instance `j`) fails with the `AlreadyBackedUp` error, with
the file system and the registry exactly as before the attempt — in
particular the pair is still mapped to the first editor and the first
editor's backup and edit files are untouched. -/
theorem claim_c3 (c p mode : String) (sfx : Option String) (i j : Nat)
    (fs : FS) (r : Registry)
    (hreg : r c p = some j)
    (hch : (checkMode mode).head?.isSome = true)
    (hmode : modeRejected mode = false) :
    construct c p mode sfx i fs r = (.error .alreadyBackedUp, fs, r) := by
  obtain ⟨ch, hc⟩ := Option.isSome_iff_exists.mp hch
  have hr : register r c p i = .error .alreadyBackedUp := by
    unfold register
    rw [if_pos (by simp [hreg])]
  unfold construct
  simp only [hc, hmode, hr, Bool.false_eq_true, if_false]

/-- Witness for C3: with `("ssh_harness", "t")` registered to instance 7,
a second construction with the default mode fails and changes nothing. -/
theorem claim_c3_witness :
    construct "ssh_harness" "t" "a" none 1 fs0 (regSet reg0 "ssh_harness" "t" 7)
      = (.error .alreadyBackedUp, fs0, regSet reg0 "ssh_harness" "t" 7) :=
  claim_c3 "ssh_harness" "t" "a" none 1 7 fs0 (regSet reg0 "ssh_harness" "t" 7)
    (by decide) (by decide) (by decide)

/-- C6: a mode whose first character reduces to `'r'` after normalising
`'U'`, with no `'+'` anywhere in it, is rejected with the
`InvalidArgument` error before any registration or file side effect (the
returned file system and registry are the inputs, whatever they were);
modes containing `'+'` and write/append modes pass the validation. -/
theorem claim_c6 (c p mode : String) (sfx : Option String) (i : Nat)
    (fs : FS) (r : Registry) :
    ((checkMode mode).head? = some 'r' → '+' ∉ mode.data →
        construct c p mode sfx i fs r = (.error .invalidArgument, fs, r)) ∧
    ('+' ∈ mode.data → modeRejected mode = false) ∧
    (mode.data.head? = some 'w' → modeRejected mode = false) ∧
    (mode.data.head? = some 'a' → modeRejected mode = false) := by
  refine ⟨?_, ?_, ?_, ?_⟩
  · intro hhead hplus
    have hnm : ¬ ('+' ∈ checkMode mode) := fun hmem =>
      hplus ((checkMode_contains_plus mode).mp hmem)
    have hrej : modeRejected mode = true := by
      unfold modeRejected
      rw [hhead]
      have hcf : (checkMode mode).contains '+' = false := by
        rw [Bool.eq_false_iff]
        intro hcon
        exact hnm (by simpa using hcon)
      rw [hcf]
      rfl
    unfold construct
    simp only [hhead, hrej, if_true]
  · intro hplus
    have hmem : '+' ∈ checkMode mode := (checkMode_contains_plus mode).mpr hplus
    have hct : (checkMode mode).contains '+' = true := by simpa using hmem
    unfold modeRejected
    rw [hct]
    simp
  · intro hw
    have hh : (checkMode mode).head? = some 'w' := by
      rw [checkMode_head?, hw]
      rfl
    unfold modeRejected
    rw [hh]
    rfl
  · intro ha
    have hh : (checkMode mode).head? = some 'a' := by
      rw [checkMode_head?, ha]
      rfl
    unfold modeRejected
    rw [hh]
    rfl

/-- Witness for C6: mode `"r"` is rejected with state unchanged, while
`"r+"`, `"w"` and `"a"` pass the validation. -/
theorem claim_c6_witness :
    construct "ssh_harness" "t" "r" none 0 fs0 reg0
      = (.error .invalidArgument, fs0, reg0) ∧
    modeRejected "r+" = false ∧ modeRejected "w" = false ∧
    modeRejected "a" = false :=
  ⟨(claim_c6 "ssh_harness" "t" "r" none 0 fs0 reg0).1 (by decide) (by decide),
   (claim_c6 "ssh_harness" "t" "r+" none 0 fs0 reg0).2.1 (by decide),
   (claim_c6 "ssh_harness" "t" "w" none 0 fs0 reg0).2.2.1 (by decide),
   (claim_c6 "ssh_harness" "t" "a" none 0 fs0 reg0).2.2.2 (by decide)⟩

/-- C7: entering a scope object that has already been entered raises the
`IllegalReuse` error.  The re-entry check is the first statement of
`__enter__`, so the failed attempt performs no file operation and touches
no registry entry: the error is raised with every piece of state exactly
as it was just before the second enter attempt. -/
theorem claim_c7 (ed : Editor) (fs : FS) (h : ed.entered = true) :
    enter ed fs = .error .illegalReuse := by
  unfold enter
  rw [if_pos h]

/-- Witness for C7: re-entering the already-entered `edW` fails. -/
theorem claim_c7_witness : enter edW fs0 = .error .illegalReuse :=
  claim_c7 edW fs0 rfl

/-- C8: `restore()` is idempotent — after any successful `restore()` call
the editor is marked restored, and a second call returns immediately,
changing no file and no registry entry, so calling it twice has the same
observable effect as calling it once. -/
theorem claim_c8 (plat : Bool) (ed : Editor) (fs : FS) (r : Registry)
    (ed' : Editor) (fs' : FS) (r' : Registry)
    (h : restore plat ed fs r = .ok (ed', fs', r')) :
    restore plat ed' fs' r' = .ok (ed', fs', r') := by
  have hres : ed'.restored = true := by
    unfold restore at h
    split at h
    · rename_i hr0
      simp only [Except.ok.injEq, Prod.mk.injEq] at h
      rw [← h.1]
      exact hr0
    · split at h
      · simp at h
      · split at h
        · simp at h
        · simp only [Except.ok.injEq, Prod.mk.injEq] at h
          rw [← h.1]
  unfold restore
  rw [if_pos hres]

/-- Witness for C8 at a concrete input: restoring the already-restored
`edRestored` again is a no-op. -/
theorem claim_c8_witness :
    restore false edRestored fs0 reg0 = .ok (edRestored, fs0, reg0) :=
  claim_c8 false edRestored fs0 reg0 edRestored fs0 reg0 rfl

/-- `open` fails only with an `IOError` (missing or already-existing
file) or a `ValueError` (nonsensical mode). -/
theorem openFile_error_elim {fs : FS} {p mode : String} {e : Err}
    (h : openFile fs p mode = .error e) :
    e = .ioError ∨ e = .invalidArgument := by
  unfold openFile at h
  split at h <;> (try split at h) <;> simp at h <;>
    first
    | exact Or.inl h.symm
    | exact Or.inr h.symm

/-- `_unregister` fails only with the `NotRegistered` error. -/
theorem unregister_error_elim {r : Registry} {c p : String} {i : Nat} {e : Err}
    (h : unregister r c p i = .error e) : e = .notRegistered := by
  unfold unregister at h
  split at h <;> (try split at h) <;> simp at h <;> exact h.symm


/-- C5: for every successful construction followed by a successful entry
(the edit file not pre-existing as junk): with a pre-populating mode
(first mode character `'a'`, `'r'` or `'U'`), if the target existed before
entry then the edit file holds exactly the original content; and whenever
the target did not exist, the edit file is empty on entry regardless of
the mode. -/
theorem claim_c5 (c p mode : String) (sfx : Option String) (i : Nat)
    (fs : FS) (r : Registry) (ed ed2 : Editor) (fs1 fs2 : FS) (r1 : Registry)
    (hco : construct c p mode sfx i fs r = (.ok ed, fs1, r1))
    (hen : enter ed fs1 = .ok (ed2, fs2))
    (hnp : fs ed.newPath = none) :
    ((mode.data.head? = some 'a' ∨ mode.data.head? = some 'r'
        ∨ mode.data.head? = some 'U') →
      ∀ cnt, fs p = some cnt → fs2 ed.newPath = some cnt) ∧
    (fs p = none → fs2 ed.newPath = some "") := by
  obtain ⟨hed, hfree, hr1, hframe, hpre, hempty⟩ := construct_ok_elim hco
  obtain ⟨hent, hed2, hcopy, hnocopy⟩ := enter_ok_elim hen
  have hnpb : ed.newPath ≠ ed.backupPath := Editor.newPath_ne_backupPath ed
  have hpath : ed.path = p := by
    rw [hed]
    rfl
  have hppne : p ≠ ed.newPath := by
    rw [← hpath]
    exact Editor.path_ne_newPath ed
  constructor
  · intro hmode cnt hcnt
    have hfs1p : fs1 ed.path = some cnt := by
      rw [hpath, hframe p hppne, hcnt]
    have hisf : isfile fs1 ed.path = true := by
      unfold isfile
      rw [hfs1p]
      rfl
    rw [hcopy hisf, copyFile_of_ne _ _ hnpb]
    exact hpre hmode cnt hcnt
  · intro hcnt
    have hfs1p : fs1 ed.path = none := by
      rw [hpath, hframe p hppne, hcnt]
    have hisf : isfile fs1 ed.path = false := by
      unfold isfile
      rw [hfs1p]
      rfl
    rw [hnocopy hisf]
    exact hempty hcnt hnp

/-- Witness for C5 at concrete inputs: with mode `"a"` over a target
containing `"abc"`, the edit file holds `"abc"` after entry; over the
empty file system it is empty after entry. -/
theorem claim_c5_witness :
    fs2A edA.newPath = some "abc" ∧ fs1E edA.newPath = some "" :=
  ⟨(claim_c5 "ssh_harness" "t" "a" none 0 fsAbc reg0 edA edA2 fs1A fs2A
      (regSet reg0 "ssh_harness" "t" 0) rfl rfl rfl).1 (Or.inl rfl) "abc" rfl,
   (claim_c5 "ssh_harness" "t" "a" none 0 fs0 reg0 edA
      { edA with entered := true, haveBackup := some false } fs1E fs1E
      (regSet reg0 "ssh_harness" "t" 0) rfl rfl rfl).2 rfl⟩

/-- C9: if `restore()` is called on an editor that was constructed but
whose scope was never entered, `_have_backup` is still `None` (not
`True`), so `restore()` takes the no-backup branch and unconditionally
unlinks the target: when the target existed before construction it is
deleted anyway, and when it does not exist the unlink raises an unwrapped
file-system error. -/
theorem claim_c9 (plat : Bool) (c p mode : String) (sfx : Option String)
    (i : Nat) (fs : FS) (r : Registry) (ed : Editor) (fs1 : FS) (r1 : Registry)
    (hco : construct c p mode sfx i fs r = (.ok ed, fs1, r1)) :
    (∀ cnt, fs p = some cnt →
        restore plat ed fs1 r1
          = .ok ({ ed with restored := true }, fsErase fs1 ed.path,
                 regDel r1 ed.ctx ed.path) ∧
        fsErase fs1 ed.path ed.path = none) ∧
    (fs p = none → restore plat ed fs1 r1 = .error .ioError) := by
  obtain ⟨hed, hfree, hr1, hframe, hpre, hempty⟩ := construct_ok_elim hco
  have hpath : ed.path = p := by
    rw [hed]
    rfl
  have hctx : ed.ctx = c := by
    rw [hed]
    rfl
  have hid : ed.id = i := by
    rw [hed]
    rfl
  have hres : ed.restored = false := by
    rw [hed]
    rfl
  have hhb : ed.haveBackup = none := by
    rw [hed]
    rfl
  have hppne : p ≠ ed.newPath := by
    rw [← hpath]
    exact Editor.path_ne_newPath ed
  have hfs1p : fs1 ed.path = fs p := by rw [hpath, hframe p hppne]
  have hunreg : unregister r1 ed.ctx ed.path ed.id
      = .ok (regDel r1 ed.ctx ed.path) := by
    rw [hctx, hpath, hid, hr1]
    unfold unregister
    simp [regSet, regDel]
  constructor
  · intro cnt hcnt
    have hisf : isfile fs1 ed.path = true := by
      unfold isfile
      rw [hfs1p, hcnt]
      rfl
    have hrm : osRemove fs1 ed.path = .ok (fsErase fs1 ed.path) := by
      unfold osRemove
      rw [if_pos hisf]
    refine ⟨?_, fsErase_self _ _⟩
    unfold restore
    rw [if_neg (by simp [hres]), if_neg (by simp [hhb])]
    simp only [hrm, hunreg]
  · intro hcnt
    have hisf : isfile fs1 ed.path = false := by
      unfold isfile
      rw [hfs1p, hcnt]
      rfl
    have hrm : osRemove fs1 ed.path = .error .ioError := by
      unfold osRemove
      rw [if_neg (by simp [hisf])]
    unfold restore
    rw [if_neg (by simp [hres]), if_neg (by simp [hhb])]
    simp only [hrm]

/-- Witness for C9 at concrete inputs: restoring the never-entered `edA`
deletes the pre-existing target `"t"`, and over the empty file system the
same restore raises the file-system error. -/
theorem claim_c9_witness :
    (restore false edA fs1A (regSet reg0 "ssh_harness" "t" 0)
        = .ok ({ edA with restored := true }, fsErase fs1A edA.path,
               regDel (regSet reg0 "ssh_harness" "t" 0) edA.ctx edA.path) ∧
      fsErase fs1A edA.path edA.path = none) ∧
    restore false edA fs1E (regSet reg0 "ssh_harness" "t" 0)
      = .error .ioError :=
  ⟨(claim_c9 false "ssh_harness" "t" "a" none 0 fsAbc reg0 edA fs1A
      (regSet reg0 "ssh_harness" "t" 0) rfl).1 "abc" rfl,
   (claim_c9 false "ssh_harness" "t" "a" none 0 fs0 reg0 edA fs1E
      (regSet reg0 "ssh_harness" "t" 0) rfl).2 rfl⟩

/-- C10: when the `open` of the edit file fails with an I/O error (a
read-update mode and no file to read), the constructor unregisters the
`(context, path)` entry before re-raising: the returned registry is
exactly the input registry, and a subsequent construction for the same
pair can never fail with `AlreadyBackedUp`. -/
theorem claim_c10 (c p mode : String) (sfx : Option String) (i : Nat)
    (fs : FS) (r : Registry)
    (hhead : mode.data.head? = some 'r' ∨ mode.data.head? = some 'U')
    (hplus : '+' ∈ mode.data)
    (hfree : r c p = none)
    (hp : fs p = none)
    (hnp : fs ((mkEditor c p mode (sfx.getD "backup") i).newPath) = none) :
    construct c p mode sfx i fs r = (.error .ioError, fs, r) ∧
    (∀ mode2 sfx2 j fs2,
      (construct c p mode2 sfx2 j fs2 r).1 ≠ .error .alreadyBackedUp) := by
  have hch : (checkMode mode).head? = some 'r' := by
    rw [checkMode_head?]
    rcases hhead with h' | h' <;> rw [h'] <;> rfl
  have hmem : '+' ∈ checkMode mode := (checkMode_contains_plus mode).mpr hplus
  have hct : (checkMode mode).contains '+' = true := by simpa using hmem
  have hrej : modeRejected mode = false := by
    unfold modeRejected
    rw [hct]
    simp
  have hreg : register r c p i = .ok (regSet r c p i) := by
    unfold register
    rw [if_neg (by simp [hfree])]
    rfl
  have hcond : ((mode.data.head? == some 'a' || mode.data.head? == some 'r'
      || mode.data.head? == some 'U') && isfile fs p) = false := by
    simp [isfile, hp]
  have hopen : openFile fs (mkEditor c p mode (sfx.getD "backup") i).newPath mode
      = .error .ioError := by
    unfold openFile
    rcases hhead with h' | h' <;>
      simp only [h'] <;>
      rw [if_neg (by simp [isfile, hnp])]
  have hunreg : unregister (regSet r c p i) c p i
      = .ok (regDel (regSet r c p i) c p) := by
    unfold unregister
    simp [regSet, regDel]
  have hregid : regDel (regSet r c p i) c p = r := by
    funext c' p'
    unfold regDel regSet
    by_cases hcp : c' = c ∧ p' = p
    · rw [if_pos hcp, hcp.1, hcp.2, hfree]
    · rw [if_neg hcp, if_neg hcp]
  constructor
  · unfold construct
    simp only [hch, hrej, Bool.false_eq_true, if_false, hreg, hcond, hopen,
      hunreg, hregid]
  · intro mode2 sfx2 j fs2 hcontra
    have hreg2 : register r c p j = .ok (regSet r c p j) := by
      unfold register
      rw [if_neg (by simp [hfree])]
      rfl
    unfold construct at hcontra
    split at hcontra
    · simp at hcontra
    · split at hcontra
      · simp at hcontra
      · rw [hreg2] at hcontra
        simp only at hcontra
        split at hcontra
        · simp at hcontra
        · split at hcontra
          · simp at hcontra
          · rename_i e2 heq2
            have := unregister_error_elim heq2
            subst this
            simp at hcontra
        · rename_i e2 heq2 hne2
          rcases openFile_error_elim hne2 with h' | h'
          · exact heq2 h'
          · subst h'
            simp at hcontra

/-- Witness for C10 at a concrete input: constructing with mode `"r+"`
over the empty file system fails with the I/O error and leaves the
registry empty, and a later default-mode construction for the same pair is
not refused as already backed up. -/
theorem claim_c10_witness :
    construct "ssh_harness" "t" "r+" none 0 fs0 reg0
      = (.error .ioError, fs0, reg0) ∧
    (construct "ssh_harness" "t" "a" none 1 fs0 reg0).1
      ≠ .error .alreadyBackedUp :=
  ⟨(claim_c10 "ssh_harness" "t" "r+" none 0 fs0 reg0 (Or.inl rfl) (by decide)
      rfl rfl rfl).1,
   (claim_c10 "ssh_harness" "t" "r+" none 0 fs0 reg0 (Or.inl rfl) (by decide)
      rfl rfl rfl).2 "a" none 1 fs0⟩

/-- C1: round-trip.  For every initial state of the target (present with
some content, or absent; the backup path not pre-existing), after a
successful construction the sequence enter → write to the edit handle →
exit → `restore()` succeeds and leaves the target exactly in its
pre-construction state, with neither the edit file nor the backup file
existing afterwards.  Holds on both platform behaviours of `_move`. -/
theorem claim_c1 (plat : Bool) (c p mode : String) (sfx : Option String)
    (i : Nat) (fs : FS) (r : Registry) (ed : Editor) (fs1 : FS)
    (r1 : Registry) (w : String)
    (hco : construct c p mode sfx i fs r = (.ok ed, fs1, r1))
    (hbp : fs (p ++ "." ++ sfx.getD "backup") = none) :
    ∃ ed2 fs2 fs4 ed5 fs5 r5,
      enter ed fs1 = .ok (ed2, fs2) ∧
      exitScope plat ed2 (writeEdit ed2 fs2 w) = .ok fs4 ∧
      restore plat ed2 fs4 r1 = .ok (ed5, fs5, r5) ∧
      fs5 p = fs p ∧ fs5 ed.newPath = none ∧ fs5 ed.backupPath = none := by
  obtain ⟨hed, hfree, hr1, hframe, hpre, hempty⟩ := construct_ok_elim hco
  have hpath : ed.path = p := by
    rw [hed]
    rfl
  have hctx : ed.ctx = c := by
    rw [hed]
    rfl
  have hid : ed.id = i := by
    rw [hed]
    rfl
  have hent0 : ed.entered = false := by
    rw [hed]
    rfl
  have hres0 : ed.restored = false := by
    rw [hed]
    rfl
  have hbps : ed.backupPath = p ++ "." ++ sfx.getD "backup" := by
    rw [hed]
    rfl
  have hpnp : ed.path ≠ ed.newPath := Editor.path_ne_newPath ed
  have hpbp : ed.path ≠ ed.backupPath := Editor.path_ne_backupPath ed
  have hnb : ed.newPath ≠ ed.backupPath := Editor.newPath_ne_backupPath ed
  have hfs1bp : fs1 ed.backupPath = none := by
    rw [hframe _ (Ne.symm hnb), hbps, hbp]
  have hfs1p : fs1 ed.path = fs p := by
    rw [hframe _ hpnp, hpath]
  by_cases htgt : isfile fs1 ed.path = true
  · -- the target existed at entry time: a backup is taken and restored
    obtain ⟨cnt, hcnt⟩ := Option.isSome_iff_exists.mp
      (by simpa [isfile] using htgt)
    have hen : enter ed fs1
        = .ok ({ ed with entered := true, haveBackup := some true },
               copyFile fs1 ed.path ed.backupPath) := by
      unfold enter
      rw [if_neg (by simp [hent0]), if_pos htgt]
    set ed2 : Editor := { ed with entered := true, haveBackup := some true }
      with hed2def
    set fs2 : FS := copyFile fs1 ed.path ed.backupPath with hfs2def
    have hpnp2 : ed2.path ≠ ed2.newPath := Editor.path_ne_newPath ed2
    have hpbp2 : ed2.path ≠ ed2.backupPath := Editor.path_ne_backupPath ed2
    have hnb2 : ed2.newPath ≠ ed2.backupPath := Editor.newPath_ne_backupPath ed2
    have hs3 : (writeEdit ed2 fs2 w) ed2.newPath = some w := fsSet_self _ _ _
    have hex := move_ok_fun plat hs3 (Ne.symm hpnp2)
    set fs4 : FS :=
      fsSet (fsErase (writeEdit ed2 fs2 w) ed2.newPath) ed2.path w with hfs4def
    have hfs4bp : fs4 ed2.backupPath = some cnt := by
      rw [hfs4def, fsSet_of_ne _ _ (Ne.symm hpbp2),
        fsErase_of_ne _ (Ne.symm hnb2), writeEdit,
        fsSet_of_ne _ _ (Ne.symm hnb2), hfs2def]
      exact copyFile_self _ _ hcnt
    have hctx2 : ed2.ctx = c := hctx
    have hpath2 : ed2.path = p := hpath
    have hid2 : ed2.id = i := hid
    have hunreg : unregister r1 ed2.ctx ed2.path ed2.id
        = .ok (regDel r1 ed2.ctx ed2.path) := by
      rw [hctx2, hpath2, hid2, hr1]
      unfold unregister
      simp [regSet, regDel]
    have hmv := move_ok_fun plat hfs4bp (Ne.symm hpbp2)
    have hre : restore plat ed2 fs4 r1
        = .ok ({ ed2 with restored := true },
               fsSet (fsErase fs4 ed2.backupPath) ed2.path cnt,
               regDel r1 ed2.ctx ed2.path) := by
      unfold restore
      rw [if_neg (by rw [hed2def]; simp [hres0]),
        if_pos (by rw [hed2def] : ed2.haveBackup = some true)]
      simp only [hmv, hunreg]
    have e2np : ed2.newPath = ed.newPath := rfl
    have e2bp : ed2.backupPath = ed.backupPath := rfl
    have e2p : ed2.path = ed.path := rfl
    refine ⟨ed2, fs2, fs4, _, _, _, hen, hex, hre, ?_, ?_, ?_⟩
    · rw [e2bp, e2p, show (p : String) = ed.path from hpath.symm, fsSet_self,
        hpath, ← hfs1p, hcnt]
    · rw [e2bp, e2p, fsSet_of_ne _ _ (Ne.symm hpnp), fsErase_of_ne _ hnb,
        hfs4def, e2np, e2p, fsSet_of_ne _ _ (Ne.symm hpnp), fsErase_self]
    · rw [e2bp, e2p, fsSet_of_ne _ _ (Ne.symm hpbp), fsErase_self]
  · -- the target did not exist at entry time: no backup, restore unlinks
    have htgtf : isfile fs1 ed.path = false := by
      simpa using htgt
    have hfsp : fs p = none := by
      rw [← hfs1p]
      revert htgtf
      unfold isfile
      cases fs1 ed.path <;> simp
    have hen : enter ed fs1
        = .ok ({ ed with entered := true, haveBackup := some false }, fs1) := by
      unfold enter
      rw [if_neg (by simp [hent0]), if_neg htgt]
    set ed2 : Editor := { ed with entered := true, haveBackup := some false }
      with hed2def
    have hpnp2 : ed2.path ≠ ed2.newPath := Editor.path_ne_newPath ed2
    have hpbp2 : ed2.path ≠ ed2.backupPath := Editor.path_ne_backupPath ed2
    have hnb2 : ed2.newPath ≠ ed2.backupPath := Editor.newPath_ne_backupPath ed2
    have hs3 : (writeEdit ed2 fs1 w) ed2.newPath = some w := fsSet_self _ _ _
    have hex := move_ok_fun plat hs3 (Ne.symm hpnp2)
    set fs4 : FS :=
      fsSet (fsErase (writeEdit ed2 fs1 w) ed2.newPath) ed2.path w with hfs4def
    have hfs4p : fs4 ed2.path = some w := fsSet_self _ _ _
    have hisf4 : isfile fs4 ed2.path = true := by
      unfold isfile
      rw [hfs4p]
      rfl
    have hrm : osRemove fs4 ed2.path = .ok (fsErase fs4 ed2.path) := by
      unfold osRemove
      rw [if_pos hisf4]
    have hctx2 : ed2.ctx = c := hctx
    have hpath2 : ed2.path = p := hpath
    have hid2 : ed2.id = i := hid
    have hunreg : unregister r1 ed2.ctx ed2.path ed2.id
        = .ok (regDel r1 ed2.ctx ed2.path) := by
      rw [hctx2, hpath2, hid2, hr1]
      unfold unregister
      simp [regSet, regDel]
    have hre : restore plat ed2 fs4 r1
        = .ok ({ ed2 with restored := true }, fsErase fs4 ed2.path,
               regDel r1 ed2.ctx ed2.path) := by
      unfold restore
      rw [if_neg (by rw [hed2def]; simp [hres0]),
        if_neg (by rw [hed2def]; simp)]
      simp only [hrm, hunreg]
    have e2np : ed2.newPath = ed.newPath := rfl
    have e2p : ed2.path = ed.path := rfl
    refine ⟨ed2, fs1, fs4, _, _, _, hen, hex, hre, ?_, ?_, ?_⟩
    · rw [e2p, show (p : String) = ed.path from hpath.symm, fsErase_self,
        hpath, hfsp]
    · rw [e2p, fsErase_of_ne _ (Ne.symm hpnp), hfs4def, e2np, e2p,
        fsSet_of_ne _ _ (Ne.symm hpnp), fsErase_self]
    · rw [e2p, fsErase_of_ne _ (Ne.symm hpbp), hfs4def, e2np, e2p,
        fsSet_of_ne _ _ (Ne.symm hpbp), fsErase_of_ne _ (Ne.symm hnb),
        writeEdit, e2np, fsSet_of_ne _ _ (Ne.symm hnb), hfs1bp]

/-- Witness for C1 at a concrete input: round-trip of `edA` over the
target `"t"` containing `"abc"`. -/
theorem claim_c1_witness :
    ∃ ed2 fs2 fs4 ed5 fs5 r5,
      enter edA fs1A = .ok (ed2, fs2) ∧
      exitScope false ed2 (writeEdit ed2 fs2 "X") = .ok fs4 ∧
      restore false ed2 fs4 (regSet reg0 "ssh_harness" "t" 0)
        = .ok (ed5, fs5, r5) ∧
      fs5 "t" = fsAbc "t" ∧ fs5 edA.newPath = none ∧
      fs5 edA.backupPath = none :=
  claim_c1 false "ssh_harness" "t" "a" none 0 fsAbc reg0 edA fs1A
    (regSet reg0 "ssh_harness" "t" 0) "X" rfl rfl


/-- The backup-file invariant, by induction along `Reach` (strengthened
with: before the scope is entered, `_have_backup` is still `None`). -/
theorem reach_inv {plat : Bool} {fsInit : FS} {rInit : Registry}
    {ed : Editor} {fs : FS} {r : Registry}
    (h : Reach plat fsInit rInit ed fs r) :
    fsInit ed.backupPath = none →
    ((isfile fs ed.backupPath = true ↔
        ed.haveBackup = some true ∧ ed.restored = false) ∧
      (ed.entered = false → ed.haveBackup = none)) := by
  induction h with
  | @init c1 p1 mode1 sfx1 i1 ed1 fs1 r1 hco =>
    intro hbp0
    obtain ⟨hed, hfree, hr1, hframe, hpre, hempty⟩ := construct_ok_elim hco
    have hb : fs1 ed1.backupPath = none := by
      rw [hframe _ (Ne.symm (Editor.newPath_ne_backupPath ed1)), hbp0]
    have hhb : ed1.haveBackup = none := by
      rw [hed]
      rfl
    refine ⟨?_, fun _ => hhb⟩
    unfold isfile
    rw [hb]
    simp [hhb]
  | @enterStep ed1 fs1 r1 ed' fs' hre hres hen ih =>
    intro hbp0
    obtain ⟨hent, hed2, hcopy, hnocopy⟩ := enter_ok_elim hen
    have hbpe : ed'.backupPath = ed1.backupPath := by
      rw [hed2]
      rfl
    have hhbe : ed'.haveBackup = some (isfile fs1 ed1.path) := by
      rw [hed2]
    have hrese : ed'.restored = ed1.restored := by
      rw [hed2]
    have hente : ed'.entered = true := by
      rw [hed2]
    rw [hbpe] at hbp0
    obtain ⟨hiff, hconn⟩ := ih hbp0
    have hhb1 : ed1.haveBackup = none := hconn hent
    refine ⟨?_, fun hcl => ?_⟩
    · rw [hbpe, hhbe, hrese]
      by_cases hf : isfile fs1 ed1.path = true
      · rw [hcopy hf, hf]
        obtain ⟨cnt, hcnt⟩ := Option.isSome_iff_exists.mp
          (by simpa [isfile] using hf)
        have hcp : copyFile fs1 ed1.path ed1.backupPath ed1.backupPath
            = some cnt := copyFile_self _ _ hcnt
        unfold isfile
        rw [hcp]
        simp [hres]
      · have hff : isfile fs1 ed1.path = false := by simpa using hf
        rw [hnocopy hff, hff]
        have hLf : isfile fs1 ed1.backupPath = false := by
          rw [Bool.eq_false_iff]
          intro hcl
          have := (hiff.mp hcl).1
          rw [hhb1] at this
          exact Option.noConfusion this
        rw [hLf]
        simp
    · rw [hente] at hcl
      exact absurd hcl (by simp)
  | @writeStep ed1 fs1 r1 w hre hent ih =>
    intro hbp0
    obtain ⟨hiff, hconn⟩ := ih hbp0
    refine ⟨?_, hconn⟩
    have hwe : writeEdit ed1 fs1 w ed1.backupPath = fs1 ed1.backupPath := by
      rw [writeEdit]
      exact fsSet_of_ne _ _ (Ne.symm (Editor.newPath_ne_backupPath ed1))
    unfold isfile at hiff ⊢
    rw [hwe]
    exact hiff
  | @exitStep ed1 fs1 r1 fs' hre hex ih =>
    intro hbp0
    obtain ⟨hiff, hconn⟩ := ih hbp0
    refine ⟨?_, hconn⟩
    have hfr : fs' ed1.backupPath = fs1 ed1.backupPath :=
      move_ok_frame hex (Ne.symm (Editor.newPath_ne_backupPath ed1))
        (Ne.symm (Editor.path_ne_backupPath ed1))
    unfold isfile at hiff ⊢
    rw [hfr]
    exact hiff
  | @restoreStep ed1 fs1 r1 ed' fs' r' hre hrest ih =>
    intro hbp0
    unfold restore at hrest
    split at hrest
    · rename_i hr0
      simp only [Except.ok.injEq, Prod.mk.injEq] at hrest
      obtain ⟨h1, h2, h3⟩ := hrest
      subst h1
      subst h2
      subst h3
      exact ih hbp0
    · rename_i hr0
      split at hrest
      · simp at hrest
      · rename_i fsm hfsm
        split at hrest
        · simp at hrest
        · rename_i rm hrm
          simp only [Except.ok.injEq, Prod.mk.injEq] at hrest
          obtain ⟨h1, h2, h3⟩ := hrest
          subst h2
          subst h3
          have hbpe : ed'.backupPath = ed1.backupPath := by
            rw [← h1]
            rfl
          have hhbe : ed'.haveBackup = ed1.haveBackup := by
            rw [← h1]
          have hrese : ed'.restored = true := by
            rw [← h1]
          have hente : ed'.entered = ed1.entered := by
            rw [← h1]
          rw [hbpe] at hbp0
          obtain ⟨hiff, hconn⟩ := ih hbp0
          refine ⟨?_, fun hcl => ?_⟩
          · rw [hbpe, hhbe, hrese]
            simp only [Bool.true_eq_false, and_false, iff_false]
            by_cases hb : ed1.haveBackup = some true
            · rw [if_pos hb] at hfsm
              have hres1 : ed1.restored = false := by simpa using hr0
              have hcl1 : isfile fs1 ed1.backupPath = true :=
                hiff.mpr ⟨hb, hres1⟩
              obtain ⟨cnt, hcnt⟩ := Option.isSome_iff_exists.mp
                (by simpa [isfile] using hcl1)
              have hmv := move_ok_fun plat hcnt
                (Ne.symm (Editor.path_ne_backupPath ed1))
              rw [hmv] at hfsm
              simp only [Except.ok.injEq] at hfsm
              subst hfsm
              intro hcontra
              unfold isfile at hcontra
              rw [fsSet_of_ne _ _ (Ne.symm (Editor.path_ne_backupPath ed1)),
                fsErase_self] at hcontra
              simp at hcontra
            · rw [if_neg hb] at hfsm
              have hfr := osRemove_ok_frame hfsm
                (Ne.symm (Editor.path_ne_backupPath ed1))
              intro hcontra
              unfold isfile at hcontra
              rw [hfr] at hcontra
              exact hb (hiff.mp (by simpa [isfile] using hcontra)).1
          · rw [hente] at hcl
            rw [hhbe]
            exact hconn hcl

/-- C4: for every editor used through the protocol (the backup path not
pre-existing), the backup file exists if and only if `hasBackup` is true
and `restore()` has not yet run; and entering the scope sets `hasBackup`
to whether the target exists at entry time, copying the target to the
backup path when it does. -/
theorem claim_c4 (plat : Bool) (fsInit : FS) (rInit : Registry)
    (ed : Editor) (fs : FS) (r : Registry)
    (hreach : Reach plat fsInit rInit ed fs r)
    (hbp0 : fsInit ed.backupPath = none) :
    (isfile fs ed.backupPath = true ↔
      ed.haveBackup = some true ∧ ed.restored = false) ∧
    (∀ (edE : Editor) (fsE : FS) (edE' : Editor) (fsE' : FS),
      enter edE fsE = .ok (edE', fsE') →
      edE'.haveBackup = some (isfile fsE edE.path) ∧
      (isfile fsE edE.path = true →
        fsE' edE.backupPath = fsE edE.path)) := by
  refine ⟨(reach_inv hreach hbp0).1, ?_⟩
  intro edE fsE edE' fsE' hen
  obtain ⟨hent, hed2, hcopy, hnocopy⟩ := enter_ok_elim hen
  refine ⟨?_, ?_⟩
  · rw [hed2]
  · intro hf
    rw [hcopy hf]
    obtain ⟨cnt, hcnt⟩ := Option.isSome_iff_exists.mp
      (by simpa [isfile] using hf)
    rw [copyFile_self _ _ hcnt, hcnt]

/-- Witness for C4 at a concrete input: after construct and enter over a
target containing `"abc"`, the backup file exists, `hasBackup` is true and
`restore()` has not run. -/
theorem claim_c4_witness :
    isfile fs2A edA2.backupPath = true ↔
      edA2.haveBackup = some true ∧ edA2.restored = false :=
  (claim_c4 false fsAbc reg0 edA2 fs2A (regSet reg0 "ssh_harness" "t" 0)
    (Reach.enterStep
      (@Reach.init false fsAbc reg0 "ssh_harness" "t" "a" none 0 edA fs1A
        (regSet reg0 "ssh_harness" "t" 0) rfl) rfl rfl) rfl).1

end BackupEditAndRestore
